import Mathlib

/-!
# BridgX cluster bootstrap and structural diff: a shallow embedding

Source files embedded here:

* `internal/gf-cluster/cluster-builder/cluster_init.go` (namespace `ClusterBuilder`)
* `pkg/cmp/diff.go` (namespace `Cmp`)

Go strings are modelled by Lean strings (sequences of Unicode characters; on
valid UTF-8 text, substring search by characters and by bytes agree).  A Go
result pair `(string, error)` is the pair `String × Option GoError`, with
`none` for the `nil` error.  Remote commands go through `sshRun`, which is
declared outside the embedded files: it is a parameter of the development
and every command issued is appended to a log.
-/

set_option autoImplicit false

namespace ClusterBuilder

/-! ## Errors and strings -/

/-- A Go `error` value, identified by its message. -/
structure GoError where
  msg : String
deriving DecidableEq, Repr

/-- Go `errors.New`. -/
def errorsNew (msg : String) : GoError := ⟨msg⟩

/-- A Go run-time panic raised by an index expression `xs[i]` with `i ≥ len(xs)`. -/
inductive Panic where
  | indexOutOfRange (index : Nat) (length : Nat)
deriving DecidableEq, Repr

/-- Whether `p` is an initial segment of `s`. -/
def startsWith : List Char → List Char → Bool
  | [], _ => true
  | _ :: _, [] => false
  | p :: ps, c :: cs => p == c && startsWith ps cs

/-- Whether `sub` occurs somewhere in `s` as a contiguous run. -/
def containsChars (sub : List Char) : List Char → Bool
  | [] => startsWith sub []
  | c :: cs => startsWith sub (c :: cs) || containsChars sub cs

/-- Go `strings.Contains(s, substr)`. -/
def stringsContains (s substr : String) : Bool :=
  containsChars substr.data s.data

/-- Drop the leading characters of `s` that belong to `cutset`. -/
def trimLeftChars (cutset : List Char) : List Char → List Char
  | [] => []
  | c :: cs => if cutset.contains c then trimLeftChars cutset cs else c :: cs

/-- Drop the trailing characters of `s` that belong to `cutset`. -/
def trimRightChars (cutset : List Char) (s : List Char) : List Char :=
  (trimLeftChars cutset s.reverse).reverse

/-- Go `strings.Trim(s, cutset)`: remove every leading and trailing character
that belongs to `cutset`. -/
def stringsTrim (s cutset : String) : String :=
  ⟨trimRightChars cutset.data (trimLeftChars cutset.data s.data)⟩

/-! ## The regular expression of `parseInitResult`

The pattern `"kubeadm join.*\n.*\n.*"` uses literal characters and `.*` only.
Go's `regexp` gives leftmost-first semantics: the match starts as early as
possible and is the one a backtracking search with greedy stars finds first;
`.` matches every character but the newline. -/

/-- One element of a compiled pattern. -/
inductive Item where
  /-- a literal character -/
  | lit (c : Char)
  /-- `.`: one character other than the newline -/
  | any
  /-- `.*`: greedy run of characters other than the newline -/
  | anyStar
deriving DecidableEq, Repr

/-- Go `regexp.Compile`, for patterns built from literal characters, `.` and `.*`. -/
def regexpCompile : List Char → List Item
  | [] => []
  | '.' :: '*' :: rest => Item.anyStar :: regexpCompile rest
  | '.' :: rest => Item.any :: regexpCompile rest
  | c :: rest => Item.lit c :: regexpCompile rest

/-- The greedy star loop of the backtracking matcher: consume one more
character when allowed and try the rest, fall back to the continuation `k`
at the current position otherwise. -/
def starLoop (k : List Char → Option (List Char)) : List Char → Option (List Char)
  | [] => k []
  | x :: xs =>
    if x ≠ '\n' then
      match starLoop k xs with
      | some r => some r
      | none => k (x :: xs)
    else k (x :: xs)

/-- Anchored backtracking match of the items at the start of the text: the
text left after the preferred match, if there is a match. -/
def matchItems : List Item → List Char → Option (List Char)
  | [], s => some s
  | Item.lit c :: items, s =>
    match s with
    | [] => none
    | x :: xs => if x = c then matchItems items xs else none
  | Item.any :: items, s =>
    match s with
    | [] => none
    | x :: xs => if x ≠ '\n' then matchItems items xs else none
  | Item.anyStar :: items, s => starLoop (matchItems items) s

/-- The leftmost match in the text: the matched text and the text after it. -/
def findFirst (items : List Item) : List Char → Option (List Char × List Char)
  | [] =>
    match matchItems items [] with
    | some rest => some ([], rest)
    | none => none
  | c :: cs =>
    match matchItems items (c :: cs) with
    | some rest => some ((c :: cs).take ((c :: cs).length - rest.length), rest)
    | none => findFirst items cs

/-- Go `(*Regexp).FindAllString(s, n)` for `n ≥ 0` and a pattern that never
matches the empty text: at most `n` successive non-overlapping matches, in
order of appearance; the empty list stands for Go's `nil` result. -/
def findAllString (items : List Item) : Nat → List Char → List (List Char)
  | 0, _ => []
  | n + 1, s =>
    match findFirst items s with
    | none => []
    | some (m, rest) => m :: findAllString items n rest

/-- The pattern text of `parseInitResult`. -/
def joinPattern : String := "kubeadm join.*\n.*\n.*"

/-- The marker every join command carries. -/
def joinMarker : String := "kubeadm join"

/-- Go index expression `res[i]` on a slice of strings: panics out of range. -/
def indexStr (res : List (List Char)) (i : Nat) : Except Panic (List Char) :=
  match res.get? i with
  | some x => Except.ok x
  | none => Except.error (Panic.indexOutOfRange i res.length)

/-- Function `parseInitResult` of cluster_init.go: the first two matches of the join
pattern, each trimmed of spaces.  The two index expressions are unchecked. -/
def parseInitResult (result : String) : Except Panic (String × String) :=
  let reg := regexpCompile joinPattern.data
  let res := findAllString reg 2 result.data
  match indexStr res 0 with
  | Except.error p => Except.error p
  | Except.ok r0 =>
    let master := stringsTrim ⟨r0⟩ " "
    match indexStr res 1 with
    | Except.error p => Except.error p
    | Except.ok r1 =>
      let node := stringsTrim ⟨r1⟩ " "
      Except.ok (master, node)

/-! ## Machines, the remote execution port and the templates -/

/-- Modelled from the spec: the machine descriptor `gf_cluster.ClusterBuildMachine`
is declared outside the embedded files.  The spec gives it an address, a
hostname and a mapping from label key to label value; `Labels` lists the
entries of the Go map in the order the `range` loop visits them. -/
structure ClusterBuildMachine where
  IP : String
  Hostname : String
  Labels : List (String × String)
deriving DecidableEq, Repr

/-- Fields of the init command template. -/
structure InitClusterData where
  IP : String
  PodCidr : String
  SvcCidr : String
deriving DecidableEq, Repr

/-- Fields of the overlay manifest template; `NetMode` is the string-valued
`gf_cluster.BuildNetMode`. -/
structure FlannelData where
  PodCidr : String
  AccessKey : String
  AccessSecret : String
  NetMode : String
deriving DecidableEq, Repr

/-- One remote command: the machine it is sent to and its text. -/
abbrev Command := ClusterBuildMachine × String

/-- The remote commands issued so far, oldest first. -/
abbrev Log := List Command

/-- A parsed template: its name and its text. -/
structure Template where
  name : String
  text : String
deriving DecidableEq, Repr

/-- Everything `cluster_init.go` uses and does not define: the remote execution
port (whose answer may depend on every command issued before), the three
template texts, the hostname canonicalisation and the `html/template` library. -/
structure Env where
  /-- answer of the remote port to a command, given the commands issued before -/
  remote : Log → ClusterBuildMachine → String → String × Option GoError
  /-- constant `initClusterCmd` -/
  initClusterCmd : String
  /-- constant `flannel` -/
  flannel : String
  /-- constant `initConfig` -/
  initConfig : String
  /-- function `convertHostName` -/
  convertHostName : String → String
  /-- the call `template.New(name).Parse(text)` -/
  tmplParse : String → String → Except GoError Template
  /-- the call `tmpl.Execute(&buf, data)` followed by `buf.String()`, init data -/
  tmplExecInit : Template → InitClusterData → Except GoError String
  /-- the call `tmpl.Execute(&buf, data)` followed by `buf.String()`, overlay data -/
  tmplExecFlannel : Template → FlannelData → Except GoError String

/-- The call `sshRun(machine, cmd)`: the port's answer, and the log extended by
the command. -/
def sshRun (env : Env) (log : Log) (machine : ClusterBuildMachine) (cmd : String) :
    (String × Option GoError) × Log :=
  (env.remote log machine cmd, log ++ [(machine, cmd)])

/-- Function `initClusterTmpl` of cluster_init.go. -/
def initClusterTmpl (env : Env) (data : InitClusterData) : String × Option GoError :=
  match env.tmplParse "init_cluster" env.initClusterCmd with
  | Except.error err => ("", some err)
  | Except.ok tmpl =>
    match env.tmplExecInit tmpl data with
    | Except.error err => ("", some err)
    | Except.ok text => (text, none)

/-- Function `initFlannel` of cluster_init.go. -/
def initFlannel (env : Env) (log : Log) (machine : ClusterBuildMachine) (data : FlannelData) :
    Option GoError × Log :=
  match env.tmplParse "flannel" env.flannel with
  | Except.error err => (some err, log)
  | Except.ok tmpl =>
    match env.tmplExecFlannel tmpl data with
    | Except.error err => (some err, log)
    | Except.ok text =>
      let r1 := sshRun env log machine ("tee flannel.yaml <<" ++ text)
      match r1.1.2 with
      | some err => (some err, r1.2)
      | none =>
        let command := "kubectl apply -f flannel.yaml"
        let r2 := sshRun env r1.2 machine command
        (r2.1.2, r2.2)

/-- Function `initMachine` of cluster_init.go. -/
def initMachine (env : Env) (log : Log) (machine : ClusterBuildMachine) : Log :=
  let r := sshRun env log machine "ls -lah"
  match r.1.2 with
  | some _ => r.2
  | none =>
    if stringsContains r.1.1 "init.sh" then r.2
    else
      let r1 := sshRun env r.2 machine ("tee init.sh <<" ++ env.initConfig)
      let r2 := sshRun env r1.2 machine "sh init.sh"
      r2.2

/-- Function `resetFlannel` of cluster_init.go. -/
def resetFlannel (env : Env) (log : Log) (machine : ClusterBuildMachine) : Log :=
  let cmd := "ifconfig cni0 down && ip link delete cni0 && ifconfig flannel.1 down && ip link delete flannel.1 && rm -rf /var/lib/cni/ && rm -f /etc/cni/net.d/* && systemctl stop kubelet"
  (sshRun env log machine cmd).2

/-- Function `resetMachine` of cluster_init.go. -/
def resetMachine (env : Env) (log : Log) (machine : ClusterBuildMachine) : Log :=
  let log1 := initMachine env log machine
  let log2 := (sshRun env log1 machine "echo y | kubeadm reset").2
  let log3 := (sshRun env log2 machine "rm -rf .kube & rm flannel.yaml").2
  resetFlannel env log3 machine

/-- Function `initCluster` of cluster_init.go. -/
def initCluster (env : Env) (log : Log) (machine : ClusterBuildMachine) (podCidr svcCidr : String) :
    (String × Option GoError) × Log :=
  let log1 := resetMachine env log machine
  let data : InitClusterData := { IP := machine.IP, PodCidr := podCidr, SvcCidr := svcCidr }
  match initClusterTmpl env data with
  | (_, some err) => (("", some err), log1)
  | (initCommand, none) =>
    let r := sshRun env log1 machine initCommand
    match r.1.2 with
    | some err => (("", some err), r.2)
    | none => ((r.1.1, none), r.2)

/-- Function `initKubeConfig` of cluster_init.go. -/
def initKubeConfig (env : Env) (log : Log) (machine : ClusterBuildMachine) :
    (String × Option GoError) × Log :=
  let r := sshRun env log machine "mkdir -p $HOME/.kube && sudo cp -i /etc/kubernetes/admin.conf $HOME/.kube/config && sudo cp -i /etc/kubernetes/admin.conf $HOME/.kube/config && cat $HOME/.kube/config"
  match r.1.2 with
  | some err => (("", some err), r.2)
  | none =>
    if stringsContains r.1.1 "kubernetes-admin" && stringsContains r.1.1 "client-certificate-data" then
      ((r.1.1, none), r.2)
    else
      (("", some (errorsNew "config format is wrong")), r.2)

/-- Go `fmt.Sprintf("kubectl label nodes %s %s=%s", host, label, value)`. -/
def labelCmd (host label value : String) : String :=
  "kubectl label nodes " ++ host ++ " " ++ label ++ "=" ++ value

/-- The inner `range machine.Labels` loop of `labelCluster`. -/
def labelMachine (env : Env) (master machine : ClusterBuildMachine) :
    Log → List (String × String) → Log
  | log, [] => log
  | log, (label, values) :: rest =>
    let cmd := labelCmd (env.convertHostName machine.Hostname) label values
    labelMachine env master machine (sshRun env log master cmd).2 rest

/-- Function `labelCluster` of cluster_init.go. -/
def labelCluster (env : Env) (master : ClusterBuildMachine) :
    Log → List ClusterBuildMachine → Log
  | log, [] => log
  | log, machine :: rest =>
    labelCluster env master (labelMachine env master machine log machine.Labels) rest

/-- Function `taintMaster` of cluster_init.go. -/
def taintMaster (env : Env) (log : Log) (master : ClusterBuildMachine) : Log :=
  (sshRun env log master "kubectl get node | grep master|awk '\x7bprint $1\x7d' | xargs -i -n 1  kubectl taint nodes '\x7b\x7d' node-role.kubernetes.io/master:NoSchedule-").2

/-- Function `getJoinCommand` of cluster_init.go. -/
def getJoinCommand (env : Env) (log : Log) (master : ClusterBuildMachine) :
    (String × Option GoError) × Log :=
  let r := sshRun env log master "kubeadm token create --print-join-command"
  match r.1.2 with
  | some err => (("", some err), r.2)
  | none =>
    if stringsContains r.1.1 "kubeadm join" then
      ((r.1.1, none), r.2)
    else
      (("", some (errorsNew ("打印加入命令返回错误:" ++ r.1.1))), r.2)

/-! ## Named commands, join blocks and concrete environments -/

/-- A machine used in the concrete instances. -/
def sampleMachine : ClusterBuildMachine :=
  { IP := "10.0.0.1", Hostname := "Master-1", Labels := [("zone", "a")] }

/-- An environment with the given remote port, empty template texts, hostnames
used as they are and templates that render to the fields of their data. -/
def envOfRemote (remote : Log → ClusterBuildMachine → String → String × Option GoError) : Env :=
  { remote := remote
    initClusterCmd := ""
    flannel := ""
    initConfig := "EOF"
    convertHostName := fun h => h
    tmplParse := fun name text => Except.ok ⟨name, text⟩
    tmplExecInit := fun _ d => Except.ok ("kubeadm init " ++ d.IP ++ " " ++ d.PodCidr ++ " " ++ d.SvcCidr)
    tmplExecFlannel := fun _ d => Except.ok d.PodCidr }

/-- A remote port that answers every command with the same text and no error. -/
def envAnswering (text : String) : Env :=
  envOfRemote (fun _ _ _ => (text, none))

/-- A remote port on which every command fails. -/
def envFailing : Env :=
  envOfRemote (fun _ _ _ => ("", some (errorsNew "connection refused")))

/-- The command text of `initKubeConfig`. -/
def kubeConfigCmd : String :=
  "mkdir -p $HOME/.kube && sudo cp -i /etc/kubernetes/admin.conf $HOME/.kube/config && sudo cp -i /etc/kubernetes/admin.conf $HOME/.kube/config && cat $HOME/.kube/config"

/-- The command text of `getJoinCommand`. -/
def joinTokenCmd : String := "kubeadm token create --print-join-command"

/-- The label commands of one machine, in the order of its label entries. -/
def labelCmdsOf (env : Env) (master machine : ClusterBuildMachine) : List Command :=
  machine.Labels.map fun kv =>
    (master, "kubectl label nodes " ++ env.convertHostName machine.Hostname ++ " " ++ kv.1 ++ "=" ++ kv.2)

/-- The uninitialize command of `resetMachine`. -/
def kubeadmResetCmd : String := "echo y | kubeadm reset"

/-- The credential directory and overlay manifest removal of `resetMachine`. -/
def removeFilesCmd : String := "rm -rf .kube & rm flannel.yaml"

/-- The overlay teardown and node-agent stop command of `resetFlannel`. -/
def resetFlannelCmd : String :=
  "ifconfig cni0 down && ip link delete cni0 && ifconfig flannel.1 down && ip link delete flannel.1 && rm -rf /var/lib/cni/ && rm -f /etc/cni/net.d/* && systemctl stop kubelet"

/-- The three commands `resetMachine` issues after the install phase. -/
def cleanupCmds (machine : ClusterBuildMachine) : List Command :=
  [(machine, kubeadmResetCmd), (machine, removeFilesCmd), (machine, resetFlannelCmd)]

/-- The commands of the install phase when the install is carried out. -/
def installCmds (env : Env) (machine : ClusterBuildMachine) : List Command :=
  [(machine, "ls -lah"), (machine, "tee init.sh <<" ++ env.initConfig), (machine, "sh init.sh")]

/-- A join block: a line that starts at the marker, and the two lines after it. -/
def joinBlock (l1 l2 l3 : List Char) : List Char :=
  joinMarker.data ++ (l1 ++ '\n' :: (l2 ++ '\n' :: l3))

/-- What `parseInitResult` makes of one join block: the block without the
spaces at its end; it is not empty, carries the marker, starts with the
marker's first letter and does not end with a space. -/
def TrimmedBlock (block : List Char) (cmd : String) : Prop :=
  cmd.data = trimRightChars [' '] block ∧
  (∃ n, block = cmd.data ++ List.replicate n ' ') ∧
  cmd ≠ "" ∧
  stringsContains cmd "kubeadm join" = true ∧
  cmd.data.head? = some 'k' ∧
  cmd.data.getLast? ≠ some ' '

end ClusterBuilder

namespace Cmp

open ClusterBuilder (GoError errorsNew)

/-! ## `pkg/cmp/diff.go`: the reflection model

A `reflect.Value` is modelled by the data the code reads from it.  The
library calls whose result the code only passes on (`fmt.Sprintf`,
`jsoniter.Marshal`, `reflect.DeepEqual`, `Value.IsZero`, type names, the
equality of map keys) are fields of `Runtime`. -/

/-- Go `reflect.Kind`. -/
inductive Kind where
  | Invalid | Bool
  | Int | Int8 | Int16 | Int32 | Int64
  | Uint | Uint8 | Uint16 | Uint32 | Uint64 | Uintptr
  | Float32 | Float64 | Complex64 | Complex128
  | Array | Chan | Func | Interface | Map | Ptr | Slice | String | Struct | UnsafePointer
deriving DecidableEq, Repr

/-- A floating-point number as far as `==` can tell: not-a-number, an
infinity, or a finite number (both zeros are the number 0). -/
inductive GoFloat where
  | nan
  | inf (negative : Bool)
  | finite (q : Rat)
deriving DecidableEq

/-- Go `==` on floating-point numbers: a not-a-number equals nothing. -/
def GoFloat.eq : GoFloat → GoFloat → Bool
  | GoFloat.nan, _ => false
  | _, GoFloat.nan => false
  | a, b => decide (a = b)

/-- The kinds of signed integers. -/
inductive IntKind where
  | Int | Int8 | Int16 | Int32 | Int64
deriving DecidableEq, Repr

/-- The kinds of unsigned integers. -/
inductive UintKind where
  | Uint | Uint8 | Uint16 | Uint32 | Uint64 | Uintptr
deriving DecidableEq, Repr

/-- The kinds of floating-point numbers. -/
inductive FloatKind where
  | Float32 | Float64
deriving DecidableEq, Repr

/-- The kinds of complex numbers. -/
inductive ComplexKind where
  | Complex64 | Complex128
deriving DecidableEq, Repr

/-- The `reflect.Kind` of a signed integer kind. -/
def IntKind.toKind : IntKind → Kind
  | IntKind.Int => Kind.Int
  | IntKind.Int8 => Kind.Int8
  | IntKind.Int16 => Kind.Int16
  | IntKind.Int32 => Kind.Int32
  | IntKind.Int64 => Kind.Int64

/-- The `reflect.Kind` of an unsigned integer kind. -/
def UintKind.toKind : UintKind → Kind
  | UintKind.Uint => Kind.Uint
  | UintKind.Uint8 => Kind.Uint8
  | UintKind.Uint16 => Kind.Uint16
  | UintKind.Uint32 => Kind.Uint32
  | UintKind.Uint64 => Kind.Uint64
  | UintKind.Uintptr => Kind.Uintptr

/-- The `reflect.Kind` of a floating-point kind. -/
def FloatKind.toKind : FloatKind → Kind
  | FloatKind.Float32 => Kind.Float32
  | FloatKind.Float64 => Kind.Float64

/-- The `reflect.Kind` of a complex kind. -/
def ComplexKind.toKind : ComplexKind → Kind
  | ComplexKind.Complex64 => Kind.Complex64
  | ComplexKind.Complex128 => Kind.Complex128

/-- A `reflect.Value`. -/
inductive Value where
  /-- the zero `reflect.Value{}` -/
  | invalid
  | bool (b : Bool)
  | int (k : IntKind) (i : Int)
  | uint (k : UintKind) (n : Nat)
  | float (k : FloatKind) (x : GoFloat)
  | complex (k : ComplexKind) (re im : GoFloat)
  | str (s : String)
  | array (elems : List Value)
  | slice (isNil : Bool) (elems : List Value)
  /-- a map and its entries, in the order `MapKeys` lists the keys -/
  | map (isNil : Bool) (entries : List (Value × Value))
  /-- a pointer; `elem` is `invalid` for the nil pointer -/
  | ptr (addr : Nat) (elem : Value)
  /-- a value of interface type; `dyn` is `invalid` for the nil interface -/
  | iface (dyn : Value)
  | struct (fields : List Value)
  | func (id : Nat)
  | chan (id : Nat)
  | unsafePointer (addr : Nat)

/-- Go `Value.Kind`. -/
def Value.kind : Value → Kind
  | Value.invalid => Kind.Invalid
  | Value.bool _ => Kind.Bool
  | Value.int k _ => k.toKind
  | Value.uint k _ => k.toKind
  | Value.float k _ => k.toKind
  | Value.complex k _ _ => k.toKind
  | Value.str _ => Kind.String
  | Value.array _ => Kind.Array
  | Value.slice _ _ => Kind.Slice
  | Value.map _ _ => Kind.Map
  | Value.ptr _ _ => Kind.Ptr
  | Value.iface _ => Kind.Interface
  | Value.struct _ => Kind.Struct
  | Value.func _ => Kind.Func
  | Value.chan _ => Kind.Chan
  | Value.unsafePointer _ => Kind.UnsafePointer

/-- Go `Value.Elem` on a pointer or an interface (it panics on other kinds,
which the code never passes). -/
def Value.elem : Value → Value
  | Value.ptr _ e => e
  | Value.iface d => d
  | v => v

/-- Go `Value.Bool`. -/
def Value.getBool : Value → Bool
  | Value.bool b => b
  | _ => false

/-- Go `Value.Int`. -/
def Value.getInt : Value → Int
  | Value.int _ i => i
  | _ => 0

/-- Go `Value.Uint`. -/
def Value.getUint : Value → Nat
  | Value.uint _ n => n
  | _ => 0

/-- Go `Value.Float`. -/
def Value.getFloat : Value → GoFloat
  | Value.float _ x => x
  | _ => GoFloat.finite 0

/-- Go `Value.Complex`. -/
def Value.getComplex : Value → GoFloat × GoFloat
  | Value.complex _ re im => (re, im)
  | _ => (GoFloat.finite 0, GoFloat.finite 0)

/-- The library calls of diff.go. -/
structure Runtime where
  /-- Go `==` on two map keys, as `MapIndex` applies it -/
  keyEq : Value → Value → Bool
  /-- the call `v.Type().Name()` -/
  typeName : Value → String
  /-- the call `v.Type().String()` -/
  typeString : Value → String
  /-- the assertion `v.Interface().(time.Time)` followed by `utils.FormatTime` -/
  timeText : Value → Option String
  /-- the call `fmt.Sprintf("%v", v)` -/
  sprint : Value → String
  /-- the call `jsoniter.Marshal(v.Interface())`: the bytes, `none` for the nil slice of a failure -/
  marshal : Value → Option (List Nat)
  /-- the call `reflect.DeepEqual(a, b)` on two `reflect.Value` structures -/
  deepEqual : Value → Value → Bool
  /-- the call `v.IsZero()` -/
  isZero : Value → Bool

/-- Go `Kind.String`. -/
def kindString : Kind → String
  | Kind.Invalid => "invalid"
  | Kind.Bool => "bool"
  | Kind.Int => "int"
  | Kind.Int8 => "int8"
  | Kind.Int16 => "int16"
  | Kind.Int32 => "int32"
  | Kind.Int64 => "int64"
  | Kind.Uint => "uint"
  | Kind.Uint8 => "uint8"
  | Kind.Uint16 => "uint16"
  | Kind.Uint32 => "uint32"
  | Kind.Uint64 => "uint64"
  | Kind.Uintptr => "uintptr"
  | Kind.Float32 => "float32"
  | Kind.Float64 => "float64"
  | Kind.Complex64 => "complex64"
  | Kind.Complex128 => "complex128"
  | Kind.Array => "array"
  | Kind.Chan => "chan"
  | Kind.Func => "func"
  | Kind.Interface => "interface"
  | Kind.Map => "map"
  | Kind.Ptr => "ptr"
  | Kind.Slice => "slice"
  | Kind.String => "string"
  | Kind.Struct => "struct"
  | Kind.UnsafePointer => "unsafe.Pointer"

/-- The value a Go `panic` carries: an error (a `*reflect.ValueError`, a
`runtime.Error`), or a plain string, which is no error. -/
inductive PanicValue where
  | error (e : GoError)
  | text (s : String)
deriving DecidableEq, Repr

/-- The `*reflect.ValueError` of a `reflect` method called on a value of the
wrong kind, with the message of its `Error` method. -/
def valueError (method : String) (kind : Kind) : PanicValue :=
  PanicValue.error (errorsNew
    (if kind = Kind.Invalid then "reflect: call of " ++ method ++ " on zero Value"
     else "reflect: call of " ++ method ++ " on " ++ kindString kind ++ " Value"))

/-- Go `Value.String`: the text of a string, a description for other kinds. -/
def Value.string (rt : Runtime) : Value → String
  | Value.str s => s
  | Value.invalid => "<invalid Value>"
  | v => "<" ++ rt.typeString v ++ " Value>"

/-- Search of a key among the entries of a map. -/
def lookupEntry (rt : Runtime) (key : Value) : List (Value × Value) → Value
  | [] => Value.invalid
  | (k, v) :: rest => if rt.keyEq key k then v else lookupEntry rt key rest

/-- Go `Value.MapIndex`: the value under the key, the zero Value when the key is
missing; it panics on a value that is not a map. -/
def Value.mapIndex (rt : Runtime) (m key : Value) : Except PanicValue Value :=
  match m with
  | Value.map _ entries => Except.ok (lookupEntry rt key entries)
  | _ => Except.error (valueError "reflect.Value.MapIndex" m.kind)

/-- Go `Value.MapKeys`; it panics on a value that is not a map. -/
def Value.mapKeys : Value → Except PanicValue (List Value)
  | Value.map _ entries => Except.ok (entries.map Prod.fst)
  | v => Except.error (valueError "reflect.Value.MapKeys" v.kind)

/-- Go `Value.NumField`; it panics on a value that is not a struct. -/
def Value.numField : Value → Except PanicValue Nat
  | Value.struct fields => Except.ok fields.length
  | v => Except.error (valueError "reflect.Value.NumField" v.kind)

/-- Go `Value.Field`; it panics with a `*reflect.ValueError` on a value that is
not a struct and with a plain string on an index out of range. -/
def Value.field (v : Value) (i : Nat) : Except PanicValue Value :=
  match v with
  | Value.struct fields =>
    match fields.get? i with
    | some f => Except.ok f
    | none => Except.error (PanicValue.text "reflect: Field index out of range")
  | _ => Except.error (valueError "reflect.Value.Field" v.kind)

/-- A `reflect.StructField`, as far as `getDiffTag` reads it. -/
structure StructField where
  Name : String
  /-- the result of `field.Tag.Get("diff")` -/
  diffTag : String
  /-- the result of `field.IsExported()` -/
  exported : Bool
deriving DecidableEq, Repr

/-- A `reflect.Type`: a pointer type, a struct type with its fields, or a type of
another kind.  `ident` is the text that identifies the type: the import path and
name of a defined type, the type literal of an unnamed one (`map[string]int`,
`map[string]int64`, `[]string`); two types are the same type exactly when they
have the same text, so `t1 != t2` is the inequality of the descriptions. -/
inductive GoType where
  | ptr (elem : GoType)
  | struct (ident : String) (fields : List StructField)
  | other (kind : Kind) (ident : String)
deriving DecidableEq, Repr

/-- Go `Type.Kind`. -/
def GoType.kind : GoType → Kind
  | GoType.ptr _ => Kind.Ptr
  | GoType.struct _ _ => Kind.Struct
  | GoType.other k _ => k

/-- Go `Type.Elem` on a pointer type. -/
def GoType.elem : GoType → GoType
  | GoType.ptr e => e
  | t => t

/-- Go `Type.Field`; it panics with a plain string on a type that is not a struct
and on an index out of range. -/
def GoType.field (t : GoType) (i : Nat) : Except PanicValue StructField :=
  match t with
  | GoType.struct _ fields =>
    match fields.get? i with
    | some f => Except.ok f
    | none => Except.error (PanicValue.text "reflect: Field index out of bounds")
  | _ => Except.error (PanicValue.text "reflect: Field of non-struct type")

/-- Constant `columnTag` of diff.go. -/
def columnTag : String := "diff"

/-- Constant `ignoreFieldTagValue` of diff.go. -/
def ignoreFieldTagValue : String := "-"

/-- Variable `errDifferentTypeCompare` of diff.go. -/
def errDifferentTypeCompare : GoError := errorsNew "different types cannot be compared"

/-- Type `FieldInfo` of diff.go. -/
structure FieldInfo where
  Key : String
  ValueOld : String
  ValueNew : String
deriving DecidableEq, Repr

/-- Type `DiffResult` of diff.go; the nil slice is the empty list. -/
structure DiffResult where
  Fields : List FieldInfo
deriving DecidableEq, Repr

/-- Function `isZeroValue` of diff.go: `v == reflect.Value{}`. -/
def isZeroValue : Value → Bool
  | Value.invalid => true
  | _ => false

/-- Function `toString` of diff.go. -/
def toString (rt : Runtime) (v : Value) : String :=
  if isZeroValue v then ""
  else
    let v := if v.kind = Kind.Ptr then v.elem else v
    if isZeroValue v then ""
    else if rt.typeName v = "Time" then
      match rt.timeText v with
      | some text => text
      | none => rt.sprint v
    else rt.sprint v

/-- Function `packFieldInfo` of diff.go. -/
def packFieldInfo (key old new : String) : FieldInfo :=
  { Key := key, ValueOld := old, ValueNew := new }

/-- Function `getDiffTag` of diff.go. -/
def getDiffTag (field : StructField) : String :=
  let tag := field.diffTag
  if tag = ignoreFieldTagValue ∨ ¬ field.exported then ""
  else if tag = "" then field.Name
  else tag

/-- Function `compare` of diff.go. -/
def compare (rt : Runtime) (v1 v2 : Value) : Bool :=
  let a := if v1.kind = Kind.Interface then v1.elem else v1
  let k1 := a.kind
  let b := if v2.kind = Kind.Interface then v2.elem else v2
  let k2 := b.kind
  if k1 ≠ k2 then false
  else
    match k1 with
    | Kind.Bool => a.getBool == b.getBool
    | Kind.Int | Kind.Int8 | Kind.Int16 | Kind.Int32 | Kind.Int64 => a.getInt == b.getInt
    | Kind.Uint | Kind.Uint8 | Kind.Uint16 | Kind.Uint32 | Kind.Uint64 | Kind.Uintptr =>
      a.getUint == b.getUint
    | Kind.Float32 | Kind.Float64 => GoFloat.eq a.getFloat b.getFloat
    | Kind.Complex64 | Kind.Complex128 =>
      GoFloat.eq a.getComplex.1 b.getComplex.1 && GoFloat.eq a.getComplex.2 b.getComplex.2
    | Kind.String => Value.string rt a == Value.string rt b
    | Kind.Slice | Kind.Array | Kind.Map => rt.marshal a == rt.marshal b
    | Kind.Ptr | Kind.Interface => rt.deepEqual a.elem b.elem
    | Kind.Func | Kind.Struct | Kind.Chan | Kind.UnsafePointer => true
    | _ => true

/-- The `range keys1` loop of `diff` on two maps. -/
def diffMapLoop (rt : Runtime) (v1 v2 : Value) :
    List Value → DiffResult → Except PanicValue DiffResult
  | [], res => Except.ok res
  | key :: keys, res =>
    match Value.mapIndex rt v1 key with
    | Except.error e => Except.error e
    | Except.ok value1 =>
      match Value.mapIndex rt v2 key with
      | Except.error e => Except.error e
      | Except.ok value2 =>
        if compare rt value1 value2 then diffMapLoop rt v1 v2 keys res
        else
          diffMapLoop rt v1 v2 keys
            { Fields := res.Fields ++
                [packFieldInfo (Value.string rt key) (toString rt value1) (toString rt value2)] }

/-- The field loop of `diff` on two structs, over the indices still to visit. -/
def diffStructLoop (rt : Runtime) (t : GoType) (v1 v2 : Value) :
    List Nat → DiffResult → Except PanicValue DiffResult
  | [], res => Except.ok res
  | i :: rest, res =>
    match t.field i with
    | Except.error e => Except.error e
    | Except.ok f =>
      let tag := getDiffTag f
      if tag = "" then diffStructLoop rt t v1 v2 rest res
      else
        match v1.field i with
        | Except.error e => Except.error e
        | Except.ok value1 =>
          match v2.field i with
          | Except.error e => Except.error e
          | Except.ok value2 =>
            if compare rt value1 value2 then diffStructLoop rt t v1 v2 rest res
            else
              diffStructLoop rt t v1 v2 rest
                { Fields := res.Fields ++
                    [packFieldInfo tag (toString rt value1) (toString rt value2)] }

/-- Function `diff` of diff.go; `Except.error` is a panic. -/
def diff (rt : Runtime) (t : GoType) (v1 v2 : Value) :
    Except PanicValue (DiffResult × Option GoError) :=
  if v1.kind = Kind.Struct then
    match v1.numField with
    | Except.error e => Except.error e
    | Except.ok n =>
      match diffStructLoop rt t v1 v2 (List.range n) { Fields := [] } with
      | Except.error e => Except.error e
      | Except.ok res => Except.ok (res, none)
  else if v1.kind = Kind.Map then
    match v1.mapKeys with
    | Except.error e => Except.error e
    | Except.ok keys1 =>
      match diffMapLoop rt v1 v2 keys1 { Fields := [] } with
      | Except.error e => Except.error e
      | Except.ok res => Except.ok (res, none)
  else Except.ok ({ Fields := [] }, none)

/-- One step of the two loops of `diffWithOneNil`. -/
def packOneNil (rt : Runtime) (key : String) (value : Value) (oldIsNil : Bool)
    (res : DiffResult) : DiffResult :=
  if oldIsNil then { Fields := res.Fields ++ [packFieldInfo key "" (toString rt value)] }
  else { Fields := res.Fields ++ [packFieldInfo key (toString rt value) ""] }

/-- The field loop of `diffWithOneNil`. -/
def oneNilStructLoop (rt : Runtime) (t : GoType) (v : Value) (oldIsNil : Bool) :
    List Nat → DiffResult → Except PanicValue DiffResult
  | [], res => Except.ok res
  | i :: rest, res =>
    match t.field i with
    | Except.error e => Except.error e
    | Except.ok f =>
      let tag := getDiffTag f
      if tag = "" then oneNilStructLoop rt t v oldIsNil rest res
      else
        match v.field i with
        | Except.error e => Except.error e
        | Except.ok value =>
          if rt.isZero value then oneNilStructLoop rt t v oldIsNil rest res
          else oneNilStructLoop rt t v oldIsNil rest (packOneNil rt tag value oldIsNil res)

/-- The `MapRange` loop of `diffWithOneNil`. -/
def oneNilMapLoop (rt : Runtime) (oldIsNil : Bool) :
    List (Value × Value) → DiffResult → DiffResult
  | [], res => res
  | (key, value) :: rest, res =>
    if rt.isZero value then oneNilMapLoop rt oldIsNil rest res
    else oneNilMapLoop rt oldIsNil rest (packOneNil rt (Value.string rt key) value oldIsNil res)

/-- Function `diffWithOneNil` of diff.go; `Except.error` is a panic. -/
def diffWithOneNil (rt : Runtime) (t : GoType) (v : Value) (oldIsNil : Bool) :
    Except PanicValue (DiffResult × Option GoError) :=
  let t1 := if t.kind = Kind.Ptr then t.elem else t
  let w := if t.kind = Kind.Ptr then v.elem else v
  if w.kind = Kind.Struct then
    match w.numField with
    | Except.error e => Except.error e
    | Except.ok n =>
      match oneNilStructLoop rt t1 w oldIsNil (List.range n) { Fields := [] } with
      | Except.error e => Except.error e
      | Except.ok res => Except.ok (res, none)
  else
    match w with
    | Value.map _ entries => Except.ok (oneNilMapLoop rt oldIsNil entries { Fields := [] }, none)
    | _ => Except.ok ({ Fields := [] }, none)

/-- A non-nil `interface{}` argument: its dynamic type and its value. -/
structure Iface where
  typ : GoType
  val : Value

/-- Function `Diff` of diff.go.  `none` is the nil interface.  The deferred
`recover` turns a panic whose value is an error into the returned error, next
to the zero `DiffResult`; a panic whose value is no error is swallowed and
leaves the zero `DiffResult` and the nil error. -/
def Diff (rt : Runtime) (o n : Option Iface) : DiffResult × Option GoError :=
  let body : Except PanicValue (DiffResult × Option GoError) :=
    match o, n with
    | none, none => Except.ok ({ Fields := [] }, none)
    | none, some b => diffWithOneNil rt b.typ b.val true
    | some a, none => diffWithOneNil rt a.typ a.val false
    | some a, some b =>
      let t1 := if a.typ.kind = Kind.Ptr then a.typ.elem else a.typ
      let v1 := if a.typ.kind = Kind.Ptr then a.val.elem else a.val
      let t2 := if b.typ.kind = Kind.Ptr then b.typ.elem else b.typ
      let v2 := if b.typ.kind = Kind.Ptr then b.val.elem else b.val
      if t1 ≠ t2 then Except.ok ({ Fields := [] }, some errDifferentTypeCompare)
      else diff rt t1 v1 v2
  match body with
  | Except.ok r => r
  | Except.error (PanicValue.error e) => ({ Fields := [] }, some e)
  | Except.error (PanicValue.text _) => ({ Fields := [] }, none)

/-- A map is well formed when `MapIndex` tells its keys apart: two different
entries have different keys and every key equals itself (no not-a-number key). -/
def WellFormedMap (rt : Runtime) (entries : List (Value × Value)) : Prop :=
  entries.Pairwise (fun a b => rt.keyEq b.1 a.1 = false) ∧
  ∀ a ∈ entries, rt.keyEq a.1 a.1 = true

/-- A runtime for maps with string keys and with floating-point keys, used in
the concrete instances. -/
def sampleRuntime : Runtime :=
  { keyEq := fun a b =>
      match a, b with
      | Value.str s, Value.str t => s == t
      | Value.float _ x, Value.float _ y => GoFloat.eq x y
      | _, _ => false
    typeName := fun _ => ""
    typeString := fun _ => "interface {}"
    timeText := fun _ => none
    sprint := fun v =>
      match v with
      | Value.str s => s
      | Value.iface (Value.str s) => s
      | _ => "?"
    marshal := fun _ => none
    deepEqual := fun _ _ => false
    isZero := isZeroValue }

/-- The type `map[string]interface{}`. -/
def mapStringAny : GoType := GoType.other Kind.Map "map[string]interface {}"

/-- The type `map[float64]string`. -/
def mapFloatString : GoType := GoType.other Kind.Map "map[float64]string"

/-- Whether `diff` reports the key `key` of the old map: `compare` rejects what
`MapIndex` finds under the key in the old map against what it finds under the
key in the new map. -/
def reported (rt : Runtime) (old new : List (Value × Value)) (key : Value) : Bool :=
  !compare rt (lookupEntry rt key old) (lookupEntry rt key new)

/-- The `FieldInfo` that `diff` builds for the key `key` of the old map. -/
def fieldOf (rt : Runtime) (old new : List (Value × Value)) (key : Value) : FieldInfo :=
  packFieldInfo (Value.string rt key) (toString rt (lookupEntry rt key old))
    (toString rt (lookupEntry rt key new))

end Cmp

/-! # Theorems -/

namespace ClusterBuilder

/-! ## Credential retrieval and join-token request -/

/-- C3: when the remote credential-fetch command answers `text` with error
`err`, `initKubeConfig` returns `(text, nil)` exactly when there is no
transport error and both markers occur in `text`; without a transport error and
with a marker absent (the empty text included) it returns `("", error)`; a
transport error is returned unchanged. -/
theorem initKubeConfig_spec (env : Env) (log : Log) (machine : ClusterBuildMachine)
    (text : String) (err : Option GoError)
    (h : env.remote log machine kubeConfigCmd = (text, err)) :
    (err = none →
      ((initKubeConfig env log machine).1 = (text, none) ↔
        (stringsContains text "kubernetes-admin" = true ∧
          stringsContains text "client-certificate-data" = true)) ∧
      (¬ (stringsContains text "kubernetes-admin" = true ∧
          stringsContains text "client-certificate-data" = true) →
        (initKubeConfig env log machine).1 = ("", some (errorsNew "config format is wrong"))) ∧
      (text = "" →
        (initKubeConfig env log machine).1 = ("", some (errorsNew "config format is wrong")))) ∧
    (∀ e, err = some e → (initKubeConfig env log machine).1 = ("", some e)) := by
  have hr : (sshRun env log machine kubeConfigCmd).1 = (text, err) := h
  refine ⟨?_, ?_⟩
  · intro herr
    subst herr
    have key : (initKubeConfig env log machine).1 =
        if stringsContains text "kubernetes-admin" && stringsContains text "client-certificate-data"
        then (text, none) else ("", some (errorsNew "config format is wrong")) := by
      unfold initKubeConfig
      simp only [← kubeConfigCmd.eq_1, hr]
      split <;> rfl
    refine ⟨?_, ?_, ?_⟩
    · rw [key]
      by_cases hb : (stringsContains text "kubernetes-admin" && stringsContains text "client-certificate-data") = true
      · simp only [hb, if_true, true_iff]
        simpa using hb
      · simp only [hb]
        simp only [Bool.and_eq_true] at hb
        simp [hb]
    · intro hn
      rw [key]
      have : ¬ (stringsContains text "kubernetes-admin" && stringsContains text "client-certificate-data") = true := by
        simpa using hn
      simp [this]
    · intro ht
      subst ht
      rw [key]
      rfl
  · intro e he
    subst he
    unfold initKubeConfig
    simp only [← kubeConfigCmd.eq_1, hr]

/-- Witness of C3: a port answering with a text that carries both markers. -/
theorem initKubeConfig_spec_witness :
    (initKubeConfig (envAnswering "user: kubernetes-admin client-certificate-data: x") []
      sampleMachine).1 = ("user: kubernetes-admin client-certificate-data: x", none) :=
  (((initKubeConfig_spec (envAnswering "user: kubernetes-admin client-certificate-data: x") []
      sampleMachine "user: kubernetes-admin client-certificate-data: x" none rfl).1 rfl).1).mpr
    ⟨by decide, by decide⟩

/-- C4: when the remote token command answers `text` with error `err`,
`getJoinCommand` returns `(text, nil)` if there is no transport error and
`text` contains "kubeadm join"; without a transport error and without the
marker it fails with an error whose message ends with the complete raw text;
a transport error is returned unchanged. -/
theorem getJoinCommand_spec (env : Env) (log : Log) (master : ClusterBuildMachine)
    (text : String) (err : Option GoError)
    (h : env.remote log master joinTokenCmd = (text, err)) :
    (err = none → stringsContains text "kubeadm join" = true →
      (getJoinCommand env log master).1 = (text, none)) ∧
    (err = none → stringsContains text "kubeadm join" = false →
      ∃ e : GoError, (getJoinCommand env log master).1 = ("", some e) ∧
        e.msg = "打印加入命令返回错误:" ++ text ∧ text.data <:+ e.msg.data) ∧
    (∀ e, err = some e → (getJoinCommand env log master).1 = ("", some e)) := by
  have hr : (sshRun env log master joinTokenCmd).1 = (text, err) := h
  refine ⟨?_, ?_, ?_⟩
  · intro herr hc
    subst herr
    unfold getJoinCommand
    simp only [← joinTokenCmd.eq_1, hr, hc, if_true]
  · intro herr hc
    subst herr
    refine ⟨errorsNew ("打印加入命令返回错误:" ++ text), ?_, rfl, ?_⟩
    · unfold getJoinCommand
      simp only [← joinTokenCmd.eq_1, hr, hc]
      rfl
    · exact ⟨"打印加入命令返回错误:".data, by simp [errorsNew, String.data_append]⟩
  · intro e he
    subst he
    unfold getJoinCommand
    simp only [← joinTokenCmd.eq_1, hr]

/-- Witness of C4: a port answering with a text that lacks the marker. -/
theorem getJoinCommand_spec_witness :
    ∃ e : GoError, (getJoinCommand (envAnswering "command not found") [] sampleMachine).1
        = ("", some e) ∧
      e.msg = "打印加入命令返回错误:" ++ "command not found" ∧
      "command not found".data <:+ e.msg.data :=
  (getJoinCommand_spec (envAnswering "command not found") [] sampleMachine
    "command not found" none rfl).2.1 rfl (by decide)

/-! ## Labels -/

theorem labelMachine_log (env : Env) (master machine : ClusterBuildMachine)
    (labels : List (String × String)) (log : Log) :
    labelMachine env master machine log labels =
      log ++ labels.map fun kv =>
        (master, "kubectl label nodes " ++ env.convertHostName machine.Hostname ++ " " ++ kv.1 ++ "=" ++ kv.2) := by
  induction labels generalizing log with
  | nil => simp [labelMachine]
  | cons kv rest ih =>
    obtain ⟨k, v⟩ := kv
    simp [labelMachine, ih, sshRun, labelCmd]

/-- C5: whatever the remote port answers, `labelCluster` appends to the log
exactly one "kubectl label nodes <canonical hostname> <key>=<value>" command per
label entry of every machine, machine by machine, each sent to the master; their
number is the sum over the machines of the number of label entries. -/
theorem labelCluster_spec (env : Env) (master : ClusterBuildMachine)
    (list : List ClusterBuildMachine) (log : Log) :
    labelCluster env master log list
        = log ++ (list.map (labelCmdsOf env master)).flatten ∧
    ((list.map (labelCmdsOf env master)).flatten).length
        = (list.map fun m => m.Labels.length).sum ∧
    ∀ c ∈ (list.map (labelCmdsOf env master)).flatten, c.1 = master := by
  refine ⟨?_, ?_, ?_⟩
  · induction list generalizing log with
    | nil => simp [labelCluster]
    | cons m rest ih =>
      simp [labelCluster, ih, labelMachine_log, labelCmdsOf]
  · induction list with
    | nil => simp
    | cons m rest ih => simp [labelCmdsOf] at ih ⊢; omega
  · intro c hc
    simp only [List.mem_flatten, List.mem_map, labelCmdsOf] at hc
    obtain ⟨l, ⟨m, _, rfl⟩, hcl⟩ := hc
    simp only [List.mem_map] at hcl
    obtain ⟨kv, _, rfl⟩ := hcl
    rfl

/-! ## Reset -/

theorem resetMachine_eq (env : Env) (log : Log) (machine : ClusterBuildMachine) :
    resetMachine env log machine = initMachine env log machine ++ cleanupCmds machine := by
  simp [resetMachine, resetFlannel, sshRun, cleanupCmds, kubeadmResetCmd, removeFilesCmd,
    resetFlannelCmd]

theorem initMachine_cases (env : Env) (log : Log) (machine : ClusterBuildMachine) :
    initMachine env log machine =
      if (env.remote log machine "ls -lah").2 = none ∧
          stringsContains (env.remote log machine "ls -lah").1 "init.sh" = false
      then log ++ installCmds env machine
      else log ++ [(machine, "ls -lah")] := by
  unfold initMachine
  simp only [sshRun]
  cases herr : (env.remote log machine "ls -lah").2 with
  | some e => simp
  | none =>
    cases hc : stringsContains (env.remote log machine "ls -lah").1 "init.sh" <;>
      simp [installCmds]

/-- Counterexample to C7: on a machine whose directory listing fails, the
listing does not show the marker file, and still `resetMachine` never writes nor
runs the bootstrap script: it issues the listing and the three cleanup commands
only. -/
theorem resetMachine_install_skipped_on_listing_error :
    stringsContains (envFailing.remote [] sampleMachine "ls -lah").1 "init.sh" = false ∧
    resetMachine envFailing [] sampleMachine
      = [(sampleMachine, "ls -lah"), (sampleMachine, "echo y | kubeadm reset"),
         (sampleMachine, "rm -rf .kube & rm flannel.yaml"),
         (sampleMachine, resetFlannelCmd)] ∧
    (sampleMachine, "tee init.sh <<" ++ envFailing.initConfig)
      ∉ resetMachine envFailing [] sampleMachine ∧
    (sampleMachine, "sh init.sh") ∉ resetMachine envFailing [] sampleMachine := by
  refine ⟨by decide, rfl, ?_, ?_⟩ <;> decide

/-- C7 (amended): `resetMachine` first lists the working directory.  If the
listing succeeds and does not show "init.sh", it then writes the bootstrap
script and runs it; if the listing shows "init.sh", or if the listing itself
fails, nothing is written or run.  In every case the uninitialize command, the
credential and manifest removal and the overlay teardown follow. -/
theorem resetMachine_install_spec (env : Env) (log : Log) (machine : ClusterBuildMachine)
    (text : String) (err : Option GoError)
    (h : env.remote log machine "ls -lah" = (text, err)) :
    (err = none → stringsContains text "init.sh" = false →
      resetMachine env log machine =
        log ++ [(machine, "ls -lah"), (machine, "tee init.sh <<" ++ env.initConfig),
                (machine, "sh init.sh")] ++ cleanupCmds machine) ∧
    (err = none → stringsContains text "init.sh" = true →
      resetMachine env log machine = log ++ [(machine, "ls -lah")] ++ cleanupCmds machine) ∧
    (err ≠ none →
      resetMachine env log machine = log ++ [(machine, "ls -lah")] ++ cleanupCmds machine) := by
  rw [resetMachine_eq, initMachine_cases, h]
  refine ⟨?_, ?_, ?_⟩
  · intro he hc
    simp [he, hc, installCmds]
  · intro he hc
    simp [he, hc]
  · intro he
    simp [he]

/-- Witness of C7 (amended): a listing that shows the marker file. -/
theorem resetMachine_install_spec_witness :
    resetMachine (envAnswering "-rw-r--r-- 1 root root 12 init.sh") [] sampleMachine
      = [] ++ [(sampleMachine, "ls -lah")] ++ cleanupCmds sampleMachine :=
  (resetMachine_install_spec (envAnswering "-rw-r--r-- 1 root root 12 init.sh") [] sampleMachine
    "-rw-r--r-- 1 root root 12 init.sh" none rfl).2.1 rfl (by decide)

/-- C8: whatever the remote port answers, `resetMachine` returns (it has no
error result) and its commands are an install phase, which starts with the
listing and holds nothing but the listing, the script write and the script run,
followed by the uninitialize command, the credential and manifest removal and
the overlay teardown, in this order; a second call right after does the same. -/
theorem resetMachine_spec (env : Env) (log : Log) (machine : ClusterBuildMachine) :
    (∃ install : List Command,
      resetMachine env log machine
        = log ++ install ++
          [(machine, "echo y | kubeadm reset"), (machine, "rm -rf .kube & rm flannel.yaml"),
           (machine, resetFlannelCmd)] ∧
      install.head? = some (machine, "ls -lah") ∧
      ∀ c ∈ install, c ∈ installCmds env machine) ∧
    (∃ install : List Command,
      resetMachine env (resetMachine env log machine) machine
        = resetMachine env log machine ++ install ++
          [(machine, "echo y | kubeadm reset"), (machine, "rm -rf .kube & rm flannel.yaml"),
           (machine, resetFlannelCmd)] ∧
      install.head? = some (machine, "ls -lah") ∧
      ∀ c ∈ install, c ∈ installCmds env machine) := by
  have key : ∀ lg : Log, ∃ install : List Command,
      resetMachine env lg machine
        = lg ++ install ++
          [(machine, "echo y | kubeadm reset"), (machine, "rm -rf .kube & rm flannel.yaml"),
           (machine, resetFlannelCmd)] ∧
      install.head? = some (machine, "ls -lah") ∧
      ∀ c ∈ install, c ∈ installCmds env machine := by
    intro lg
    rw [resetMachine_eq, initMachine_cases]
    split
    · exact ⟨installCmds env machine, rfl, rfl, fun c hc => hc⟩
    · exact ⟨[(machine, "ls -lah")], rfl, rfl, fun c hc => by
        simp only [List.mem_singleton] at hc
        subst hc
        simp [installCmds]⟩
  exact ⟨key log, key (resetMachine env log machine)⟩

/-! ## Master initialisation and overlay installation -/

/-- C6: `initCluster` first runs `resetMachine`, so all the reset commands come
before anything else it issues.  When the init template parses and renders from
exactly `{IP = machine.IP, PodCidr = podCidr, SvcCidr = svcCidr}` to
`initCommand`, the one further command is `initCommand`, sent to the machine
after the reset commands; a transport error of that command gives
`("", error)` and otherwise the console text is returned as it is, with no
error.  When the template fails to parse or to render, that error is returned
after the reset and no init command is issued. -/
theorem initCluster_spec (env : Env) (log : Log) (machine : ClusterBuildMachine)
    (podCidr svcCidr : String) :
    (∀ (tmpl : Template) (initCommand : String),
      env.tmplParse "init_cluster" env.initClusterCmd = Except.ok tmpl →
      env.tmplExecInit tmpl { IP := machine.IP, PodCidr := podCidr, SvcCidr := svcCidr }
        = Except.ok initCommand →
      (initCluster env log machine podCidr svcCidr).2
          = resetMachine env log machine ++ [(machine, initCommand)] ∧
      (∃ install : List Command,
        (initCluster env log machine podCidr svcCidr).2
          = log ++ install ++ cleanupCmds machine ++ [(machine, initCommand)]) ∧
      (∀ e, (env.remote (resetMachine env log machine) machine initCommand).2 = some e →
        (initCluster env log machine podCidr svcCidr).1 = ("", some e)) ∧
      ((env.remote (resetMachine env log machine) machine initCommand).2 = none →
        (initCluster env log machine podCidr svcCidr).1
          = ((env.remote (resetMachine env log machine) machine initCommand).1, none))) ∧
    (∀ e, env.tmplParse "init_cluster" env.initClusterCmd = Except.error e →
      initCluster env log machine podCidr svcCidr
        = (("", some e), resetMachine env log machine)) ∧
    (∀ (tmpl : Template) (e : GoError),
      env.tmplParse "init_cluster" env.initClusterCmd = Except.ok tmpl →
      env.tmplExecInit tmpl { IP := machine.IP, PodCidr := podCidr, SvcCidr := svcCidr }
        = Except.error e →
      initCluster env log machine podCidr svcCidr
        = (("", some e), resetMachine env log machine)) := by
  refine ⟨?_, ?_, ?_⟩
  · intro tmpl initCommand hparse hexec
    have hrender : initClusterTmpl env
        { IP := machine.IP, PodCidr := podCidr, SvcCidr := svcCidr } = (initCommand, none) := by
      unfold initClusterTmpl
      simp only [hparse, hexec]
    have hlog : (initCluster env log machine podCidr svcCidr).2
        = resetMachine env log machine ++ [(machine, initCommand)] := by
      unfold initCluster
      simp only [hrender, sshRun]
      cases (env.remote (resetMachine env log machine) machine initCommand).2 <;> rfl
    refine ⟨hlog, ?_, ?_, ?_⟩
    · refine ⟨(initMachine env log machine).drop log.length, ?_⟩
      rw [hlog, resetMachine_eq, initMachine_cases]
      split <;> simp
    · intro e he
      unfold initCluster
      simp only [hrender, sshRun, he]
    · intro he
      unfold initCluster
      simp only [hrender, sshRun, he]
  · intro e hparse
    have hrender : initClusterTmpl env
        { IP := machine.IP, PodCidr := podCidr, SvcCidr := svcCidr } = ("", some e) := by
      unfold initClusterTmpl
      simp only [hparse]
    unfold initCluster
    simp only [hrender]
  · intro tmpl e hparse hexec
    have hrender : initClusterTmpl env
        { IP := machine.IP, PodCidr := podCidr, SvcCidr := svcCidr } = ("", some e) := by
      unfold initClusterTmpl
      simp only [hparse, hexec]
    unfold initCluster
    simp only [hrender]

/-- Instance of C6: the sample template renders the three fields into the init
command, which is the one command issued after the reset; the port answers it
with a console text, which is returned as it is. -/
theorem initCluster_spec_witness :
    (initCluster (envAnswering "init.sh") [] sampleMachine "10.244.0.0/16" "10.96.0.0/12").2
      = resetMachine (envAnswering "init.sh") [] sampleMachine ++
          [(sampleMachine, "kubeadm init 10.0.0.1 10.244.0.0/16 10.96.0.0/12")] ∧
    (initCluster (envAnswering "init.sh") [] sampleMachine "10.244.0.0/16" "10.96.0.0/12").1
      = ("init.sh", none) :=
  ⟨((initCluster_spec (envAnswering "init.sh") [] sampleMachine "10.244.0.0/16"
      "10.96.0.0/12").1 ⟨"init_cluster", ""⟩ "kubeadm init 10.0.0.1 10.244.0.0/16 10.96.0.0/12"
      rfl rfl).1,
   ((initCluster_spec (envAnswering "init.sh") [] sampleMachine "10.244.0.0/16"
      "10.96.0.0/12").1 ⟨"init_cluster", ""⟩ "kubeadm init 10.0.0.1 10.244.0.0/16 10.96.0.0/12"
      rfl rfl).2.2.2 rfl⟩

/-- C9: when the overlay manifest renders to `text`, `initFlannel` first sends
the manifest write to the machine.  If the write fails, that error is returned
and the apply command is never issued; otherwise "kubectl apply -f flannel.yaml"
is sent next and its error, if any, is returned.  No error is returned exactly
when both remote commands succeed. -/
theorem initFlannel_spec (env : Env) (log : Log) (machine : ClusterBuildMachine)
    (data : FlannelData) (tmpl : Template) (text : String)
    (hparse : env.tmplParse "flannel" env.flannel = Except.ok tmpl)
    (hexec : env.tmplExecFlannel tmpl data = Except.ok text) :
    (∀ e, (env.remote log machine ("tee flannel.yaml <<" ++ text)).2 = some e →
      initFlannel env log machine data
        = (some e, log ++ [(machine, "tee flannel.yaml <<" ++ text)])) ∧
    ((env.remote log machine ("tee flannel.yaml <<" ++ text)).2 = none →
      initFlannel env log machine data
        = ((env.remote (log ++ [(machine, "tee flannel.yaml <<" ++ text)]) machine
              "kubectl apply -f flannel.yaml").2,
           log ++ [(machine, "tee flannel.yaml <<" ++ text),
                   (machine, "kubectl apply -f flannel.yaml")])) ∧
    ((initFlannel env log machine data).1 = none ↔
      ((env.remote log machine ("tee flannel.yaml <<" ++ text)).2 = none ∧
        (env.remote (log ++ [(machine, "tee flannel.yaml <<" ++ text)]) machine
          "kubectl apply -f flannel.yaml").2 = none)) := by
  have hfail : ∀ e, (env.remote log machine ("tee flannel.yaml <<" ++ text)).2 = some e →
      initFlannel env log machine data
        = (some e, log ++ [(machine, "tee flannel.yaml <<" ++ text)]) := by
    intro e he
    unfold initFlannel
    simp only [hparse, hexec, sshRun, he]
  have hok : (env.remote log machine ("tee flannel.yaml <<" ++ text)).2 = none →
      initFlannel env log machine data
        = ((env.remote (log ++ [(machine, "tee flannel.yaml <<" ++ text)]) machine
              "kubectl apply -f flannel.yaml").2,
           log ++ [(machine, "tee flannel.yaml <<" ++ text),
                   (machine, "kubectl apply -f flannel.yaml")]) := by
    intro he
    unfold initFlannel
    simp only [hparse, hexec, sshRun, he]
    simp
  refine ⟨hfail, hok, ?_⟩
  cases hw : (env.remote log machine ("tee flannel.yaml <<" ++ text)).2 with
  | some e => simp [hfail e hw]
  | none => simp [hok hw]

/-- Witness of C9: a port on which every command fails. -/
theorem initFlannel_spec_witness :
    initFlannel envFailing [] sampleMachine
        { PodCidr := "10.244.0.0/16", AccessKey := "k", AccessSecret := "s", NetMode := "vxlan" }
      = (some (errorsNew "connection refused"),
          [] ++ [(sampleMachine, "tee flannel.yaml <<" ++ "10.244.0.0/16")]) :=
  (initFlannel_spec envFailing [] sampleMachine
    { PodCidr := "10.244.0.0/16", AccessKey := "k", AccessSecret := "s", NetMode := "vxlan" }
    ⟨"flannel", ""⟩ "10.244.0.0/16" rfl rfl).1 (errorsNew "connection refused") rfl

/-! ## Join-command extraction -/

theorem startsWith_iff (p s : List Char) : startsWith p s = true ↔ p <+: s := by
  induction p generalizing s with
  | nil => simp [startsWith]
  | cons a p ih =>
    cases s with
    | nil => simp [startsWith]
    | cons c cs => simp [startsWith, ih, List.cons_prefix_cons]

theorem containsChars_iff (sub s : List Char) : containsChars sub s = true ↔ sub <:+: s := by
  induction s with
  | nil => simp [containsChars, startsWith_iff]
  | cons c cs ih =>
    simp [containsChars, ih, startsWith_iff, List.infix_cons_iff]

/-- The compiled join pattern: the marker, then three greedy lines separated
by two newlines. -/
theorem regexpCompile_joinPattern :
    regexpCompile joinPattern.data =
      joinMarker.data.map Item.lit ++
        [Item.anyStar, Item.lit '\n', Item.anyStar, Item.lit '\n', Item.anyStar] := by
  decide

theorem matchItems_lits_append (m : List Char) (items : List Item) (s : List Char) :
    matchItems (m.map Item.lit ++ items) (m ++ s) = matchItems items s := by
  induction m with
  | nil => rfl
  | cons c cs ih => simp [matchItems, ih]

theorem matchItems_lits_none (m : List Char) (items : List Item) (s : List Char)
    (h : startsWith m s = false) : matchItems (m.map Item.lit ++ items) s = none := by
  induction m generalizing s with
  | nil => simp [startsWith] at h
  | cons c cs ih =>
    cases s with
    | nil => simp [matchItems]
    | cons x xs =>
      by_cases hx : x = c
      · subst hx
        simp only [startsWith, beq_self_eq_true, Bool.true_and] at h
        simp [matchItems, ih xs h]
      · simp [matchItems, hx]

theorem starLoop_line (k : List Char → Option (List Char)) (line rest r : List Char)
    (hline : ∀ c ∈ line, c ≠ '\n') (hrest : rest = [] ∨ ∃ t, rest = '\n' :: t)
    (hk : k rest = some r) : starLoop k (line ++ rest) = some r := by
  induction line with
  | nil =>
    rcases hrest with rfl | ⟨t, rfl⟩
    · simpa [starLoop] using hk
    · simpa [starLoop] using hk
  | cons x xs ih =>
    have hx : x ≠ '\n' := hline x (List.mem_cons_self _ _)
    have := ih (fun c hc => hline c (List.mem_cons_of_mem _ hc))
    simp [starLoop, hx, this]

/-- The anchored match of a join block: the marker, the rest of its line and
the two following lines, up to the end of the third line. -/
theorem matchItems_block (l1 l2 l3 rest : List Char)
    (h1 : ∀ c ∈ l1, c ≠ '\n') (h2 : ∀ c ∈ l2, c ≠ '\n') (h3 : ∀ c ∈ l3, c ≠ '\n')
    (hrest : rest = [] ∨ ∃ t, rest = '\n' :: t) :
    matchItems (regexpCompile joinPattern.data)
      (joinMarker.data ++ (l1 ++ '\n' :: (l2 ++ '\n' :: (l3 ++ rest)))) = some rest := by
  rw [regexpCompile_joinPattern, matchItems_lits_append]
  simp only [matchItems]
  apply starLoop_line _ _ _ _ h1 (Or.inr ⟨_, rfl⟩)
  simp only [matchItems, if_true]
  apply starLoop_line _ _ _ _ h2 (Or.inr ⟨_, rfl⟩)
  simp only [matchItems, if_true]
  exact starLoop_line _ _ _ _ h3 hrest rfl

theorem findFirst_skip (items : List Item) (pre s : List Char)
    (h : ∀ p q, pre = p ++ q → q ≠ [] → matchItems items (q ++ s) = none) :
    findFirst items (pre ++ s) = findFirst items s := by
  induction pre with
  | nil => rfl
  | cons c cs ih =>
    have h0 := h [] (c :: cs) rfl (by simp)
    have hrec := ih (fun p q hpq hq => h (c :: p) q (by simp [hpq]) hq)
    simp only [List.cons_append] at h0 ⊢
    simp [findFirst, h0, hrec]

theorem findFirst_here (items : List Item) (b rest : List Char) (hb : b ≠ [])
    (h : matchItems items (b ++ rest) = some rest) :
    findFirst items (b ++ rest) = some (b, rest) := by
  cases b with
  | nil => exact absurd rfl hb
  | cons c cs =>
    simp only [List.cons_append] at h ⊢
    simp only [findFirst, h]
    have hn : (c :: (cs ++ rest)).length - rest.length = (c :: cs).length := by
      simp only [List.length_cons, List.length_append]
      omega
    rw [hn, ← List.cons_append, List.take_left]

/-- No occurrence of the marker starts inside `pre` when the text goes on with
the marker itself. -/
theorem startsWith_false_of_not_contains (m pre : List Char)
    (h : containsChars m (pre ++ m.dropLast) = false) (p q t : List Char)
    (hpq : pre = p ++ q) (hq : q ≠ []) : startsWith m (q ++ (m ++ t)) = false := by
  by_contra hc
  have hpre : m <+: q ++ (m ++ t) := (startsWith_iff _ _).1 (by simpa using hc)
  have hsplit : q ++ (m ++ t) = (q ++ m.dropLast) ++ (m.drop (m.length - 1) ++ t) := by
    rw [List.dropLast_eq_take]
    simp [List.append_assoc, ← List.append_assoc (m.take (m.length - 1)), List.take_append_drop]
  have hlen : m.length ≤ (q ++ m.dropLast).length := by
    have : 0 < q.length := List.length_pos.2 hq
    simp only [List.length_append, List.length_dropLast]
    omega
  have h2 : m <+: q ++ m.dropLast :=
    List.prefix_of_prefix_length_le hpre ⟨_, hsplit.symm⟩ hlen
  have h3 : m <:+: pre ++ m.dropLast := by
    obtain ⟨u, hu⟩ := h2
    exact ⟨p, u, by rw [hpq]; simp [List.append_assoc, hu]⟩
  have := (containsChars_iff _ _).2 h3
  simp [h] at this

theorem trimLeftChars_append (cutset u v : List Char) (x : Char)
    (hx : cutset.contains x = false) :
    trimLeftChars cutset (u ++ x :: v) = trimLeftChars cutset u ++ x :: v := by
  induction u with
  | nil => simp only [List.nil_append, trimLeftChars, hx, Bool.false_eq_true, if_false]
  | cons c cs ih =>
    show trimLeftChars cutset (c :: (cs ++ x :: v)) = trimLeftChars cutset (c :: cs) ++ x :: v
    by_cases hc : cutset.contains c = true
    · simp only [trimLeftChars, hc, if_true, ih]
    · simp only [trimLeftChars, hc, Bool.false_eq_true, if_false, List.cons_append]

theorem trimRightChars_append (cutset a b : List Char) (x : Char)
    (hx : cutset.contains x = false) :
    trimRightChars cutset (a ++ x :: b) = a ++ x :: trimRightChars cutset b := by
  simp only [trimRightChars, List.reverse_append, List.reverse_cons, List.append_assoc,
    List.singleton_append, trimLeftChars_append _ _ _ _ hx, List.reverse_reverse]

theorem trimLeftChars_head (cutset s : List Char) (c : Char)
    (h : (trimLeftChars cutset s).head? = some c) : cutset.contains c = false := by
  induction s with
  | nil => simp [trimLeftChars] at h
  | cons x xs ih =>
    by_cases hx : cutset.contains x = true
    · simp only [trimLeftChars, hx, if_true] at h
      exact ih h
    · simp only [trimLeftChars, hx] at h
      simp at h
      subst h
      simpa using hx

theorem trimRightChars_getLast (cutset s : List Char) (c : Char)
    (h : (trimRightChars cutset s).getLast? = some c) : cutset.contains c = false := by
  apply trimLeftChars_head cutset s.reverse
  simpa [trimRightChars] using h

theorem trimLeftChars_spaces (s : List Char) :
    ∃ n, s = List.replicate n ' ' ++ trimLeftChars [' '] s := by
  induction s with
  | nil => exact ⟨0, rfl⟩
  | cons x xs ih =>
    by_cases hx : x = ' '
    · obtain ⟨n, hn⟩ := ih
      refine ⟨n + 1, ?_⟩
      subst hx
      simp only [trimLeftChars, List.contains_cons, beq_self_eq_true, Bool.true_or, if_true,
        List.replicate_succ, List.cons_append]
      rw [← hn]
    · refine ⟨0, ?_⟩
      simp [trimLeftChars, hx]

theorem trimRightChars_spaces (s : List Char) :
    ∃ n, s = trimRightChars [' '] s ++ List.replicate n ' ' := by
  obtain ⟨n, hn⟩ := trimLeftChars_spaces s.reverse
  refine ⟨n, ?_⟩
  have := congrArg List.reverse hn
  simpa [trimRightChars] using this

/-- Trimming a join block of spaces leaves the marker in front and removes the
spaces at the end. -/
theorem stringsTrim_joinBlock (l1 l2 l3 : List Char) :
    (stringsTrim ⟨joinBlock l1 l2 l3⟩ " ").data
      = "kubeadm joi".data ++ 'n' :: trimRightChars [' '] (l1 ++ '\n' :: (l2 ++ '\n' :: l3)) := by
  have hb : joinBlock l1 l2 l3 = "kubeadm joi".data ++ 'n' :: (l1 ++ '\n' :: (l2 ++ '\n' :: l3)) := rfl
  have hl : trimLeftChars [' '] (joinBlock l1 l2 l3) = joinBlock l1 l2 l3 := rfl
  show trimRightChars [' '] (trimLeftChars [' '] (joinBlock l1 l2 l3)) = _
  rw [hl, hb, trimRightChars_append _ _ _ _ (by decide)]

theorem stringsTrim_joinBlock_eq (l1 l2 l3 : List Char) :
    (stringsTrim ⟨joinBlock l1 l2 l3⟩ " ").data = trimRightChars [' '] (joinBlock l1 l2 l3) := by
  have hl : trimLeftChars [' '] (joinBlock l1 l2 l3) = joinBlock l1 l2 l3 := rfl
  show trimRightChars [' '] (trimLeftChars [' '] (joinBlock l1 l2 l3)) = _
  rw [hl]

/-- The two matches of a text made of two join blocks. -/
theorem findAllString_two_blocks (pre l1 l2 l3 mid k1 k2 k3 post : List Char)
    (h1 : ∀ c ∈ l1, c ≠ '\n') (h2 : ∀ c ∈ l2, c ≠ '\n') (h3 : ∀ c ∈ l3, c ≠ '\n')
    (g1 : ∀ c ∈ k1, c ≠ '\n') (g2 : ∀ c ∈ k2, c ≠ '\n') (g3 : ∀ c ∈ k3, c ≠ '\n')
    (hpre : containsChars joinMarker.data (pre ++ joinMarker.data.dropLast) = false)
    (hmid : containsChars joinMarker.data (mid ++ joinMarker.data.dropLast) = false)
    (hpost : post = [] ∨ ∃ t, post = '\n' :: t) :
    findAllString (regexpCompile joinPattern.data) 2
        (pre ++ joinBlock l1 l2 l3 ++ '\n' :: mid ++ joinBlock k1 k2 k3 ++ post)
      = [joinBlock l1 l2 l3, joinBlock k1 k2 k3] := by
  have hne : ∀ a b c : List Char, joinBlock a b c ≠ [] := by
    intro a b c h
    have := congrArg List.length h
    simp [joinBlock, joinMarker] at this
  have hmid2 : containsChars joinMarker.data (('\n' :: mid) ++ joinMarker.data.dropLast) = false := by
    have hs : startsWith joinMarker.data ('\n' :: (mid ++ joinMarker.data.dropLast)) = false := rfl
    show (startsWith joinMarker.data ('\n' :: (mid ++ joinMarker.data.dropLast))
      || containsChars joinMarker.data (mid ++ joinMarker.data.dropLast)) = false
    rw [hs, hmid]
    rfl
  -- the second match
  have hsecond : findFirst (regexpCompile joinPattern.data)
      (('\n' :: mid) ++ (joinBlock k1 k2 k3 ++ post)) = some (joinBlock k1 k2 k3, post) := by
    rw [findFirst_skip]
    · apply findFirst_here _ _ _ (hne _ _ _)
      have := matchItems_block k1 k2 k3 post g1 g2 g3 hpost
      simpa [joinBlock, List.append_assoc] using this
    · intro p q hpq hq
      rw [regexpCompile_joinPattern]
      apply matchItems_lits_none
      have := startsWith_false_of_not_contains joinMarker.data ('\n' :: mid) hmid2 p q
        (k1 ++ '\n' :: (k2 ++ '\n' :: k3) ++ post) hpq hq
      simpa [joinBlock, List.append_assoc] using this
  -- the first match
  have hfirst : findFirst (regexpCompile joinPattern.data)
      (pre ++ (joinBlock l1 l2 l3 ++ (('\n' :: mid) ++ (joinBlock k1 k2 k3 ++ post))))
        = some (joinBlock l1 l2 l3, ('\n' :: mid) ++ (joinBlock k1 k2 k3 ++ post)) := by
    rw [findFirst_skip]
    · apply findFirst_here _ _ _ (hne _ _ _)
      have := matchItems_block l1 l2 l3 (('\n' :: mid) ++ (joinBlock k1 k2 k3 ++ post))
        h1 h2 h3 (Or.inr ⟨_, rfl⟩)
      simpa [joinBlock, List.append_assoc] using this
    · intro p q hpq hq
      rw [regexpCompile_joinPattern]
      apply matchItems_lits_none
      have := startsWith_false_of_not_contains joinMarker.data pre hpre p q
        (l1 ++ '\n' :: (l2 ++ '\n' :: l3) ++ (('\n' :: mid) ++ (joinBlock k1 k2 k3 ++ post))) hpq hq
      simpa [joinBlock, List.append_assoc] using this
  have htext : pre ++ joinBlock l1 l2 l3 ++ '\n' :: mid ++ joinBlock k1 k2 k3 ++ post
      = pre ++ (joinBlock l1 l2 l3 ++ (('\n' :: mid) ++ (joinBlock k1 k2 k3 ++ post))) := by
    simp [List.append_assoc]
  rw [htext]
  simp only [findAllString, hfirst, hsecond]

theorem trimmedBlock_stringsTrim (l1 l2 l3 : List Char) :
    TrimmedBlock (joinBlock l1 l2 l3) (stringsTrim ⟨joinBlock l1 l2 l3⟩ " ") := by
  have hd := stringsTrim_joinBlock l1 l2 l3
  have he := stringsTrim_joinBlock_eq l1 l2 l3
  refine ⟨he, ?_, ?_, ?_, ?_, ?_⟩
  · rw [he]
    exact trimRightChars_spaces _
  · intro h
    rw [h] at hd
    simp at hd
  · unfold stringsContains
    rw [containsChars_iff, hd]
    exact ⟨[], trimRightChars [' '] (l1 ++ '\n' :: (l2 ++ '\n' :: l3)), by simp⟩
  · rw [hd]
    rfl
  · intro h
    rw [he] at h
    have := trimRightChars_getLast _ _ _ h
    simp at this

/-- Counterexample to C2: a console text made of two well-formed join blocks
whose third lines end with a tab and with a carriage return; both returned
commands keep that whitespace character at their end. -/
theorem parseInitResult_keeps_trailing_whitespace :
    parseInitResult "kubeadm join a\nb\nc\t\nkubeadm join d\ne\nf\r\n"
      = Except.ok ("kubeadm join a\nb\nc\t", "kubeadm join d\ne\nf\r") ∧
    "kubeadm join a\nb\nc\t".data.getLast? = some '\t' ∧
    "kubeadm join d\ne\nf\r".data.getLast? = some '\r' :=
  ⟨rfl, rfl, rfl⟩

/-- C2 (amended): for a console text made of a first join block, found at the
first place where the marker occurs, and a second join block, found at the
first place where the marker occurs after the end of the first block's third
line, `parseInitResult` returns the first block as master and the second as
node, each without the spaces at its end; both are non-empty, carry the
marker, start with the marker's first letter and do not end with a space.
Nothing but spaces is removed: a tab, carriage return or newline that ends a
block is kept. -/
theorem parseInitResult_two_blocks (pre l1 l2 l3 mid k1 k2 k3 post : List Char)
    (h1 : ∀ c ∈ l1, c ≠ '\n') (h2 : ∀ c ∈ l2, c ≠ '\n') (h3 : ∀ c ∈ l3, c ≠ '\n')
    (g1 : ∀ c ∈ k1, c ≠ '\n') (g2 : ∀ c ∈ k2, c ≠ '\n') (g3 : ∀ c ∈ k3, c ≠ '\n')
    (hpre : containsChars joinMarker.data (pre ++ joinMarker.data.dropLast) = false)
    (hmid : containsChars joinMarker.data (mid ++ joinMarker.data.dropLast) = false)
    (hpost : post = [] ∨ ∃ t, post = '\n' :: t) :
    parseInitResult ⟨pre ++ joinBlock l1 l2 l3 ++ '\n' :: mid ++ joinBlock k1 k2 k3 ++ post⟩
      = Except.ok (stringsTrim ⟨joinBlock l1 l2 l3⟩ " ", stringsTrim ⟨joinBlock k1 k2 k3⟩ " ") ∧
    TrimmedBlock (joinBlock l1 l2 l3) (stringsTrim ⟨joinBlock l1 l2 l3⟩ " ") ∧
    TrimmedBlock (joinBlock k1 k2 k3) (stringsTrim ⟨joinBlock k1 k2 k3⟩ " ") := by
  refine ⟨?_, trimmedBlock_stringsTrim _ _ _, trimmedBlock_stringsTrim _ _ _⟩
  have hall := findAllString_two_blocks pre l1 l2 l3 mid k1 k2 k3 post h1 h2 h3 g1 g2 g3
    hpre hmid hpost
  unfold parseInitResult
  simp only [hall]
  rfl

/-- Witness of C2 (amended): two join blocks after a banner line, the first one
ending with spaces. -/
theorem parseInitResult_two_blocks_witness :
    parseInitResult "ok\n  kubeadm join a \\\n  b \\\n  c  \n\nkubeadm join d\ne\nf\t\nbye"
      = Except.ok ("kubeadm join a \\\n  b \\\n  c", "kubeadm join d\ne\nf\t") :=
  (parseInitResult_two_blocks "ok\n  ".data " a \\".data "  b \\".data "  c  ".data "\n".data
    " d".data "e".data "f\t".data "\nbye".data
    (by decide) (by decide) (by decide) (by decide) (by decide) (by decide)
    (by decide) (by decide) (Or.inr ⟨"bye".data, rfl⟩)).1

/-- C1: the two index expressions of `parseInitResult` are unchecked.  On the
empty console text, and on a text with no join block, the match list is empty
and `res[0]` panics; on a text with exactly one join block `res[1]` panics.  No
error value is returned in either case. -/
theorem parseInitResult_panics_below_two_blocks :
    parseInitResult "" = Except.error (Panic.indexOutOfRange 0 0) ∧
    parseInitResult "error execution phase preflight\n"
      = Except.error (Panic.indexOutOfRange 0 0) ∧
    parseInitResult "kubeadm join 10.0.0.1:6443 --token t \\\n  --hash sha256:h \\\n  --control-plane \n"
      = Except.error (Panic.indexOutOfRange 1 1) :=
  ⟨rfl, rfl, rfl⟩

/-- The unchecked indexing in general: `parseInitResult` panics exactly on the
console texts in which the join pattern has fewer than two matches. -/
theorem parseInitResult_panics_iff (result : String) :
    (∃ p, parseInitResult result = Except.error p) ↔
      (findAllString (regexpCompile joinPattern.data) 2 result.data).length < 2 := by
  simp only [parseInitResult]
  generalize findAllString (regexpCompile joinPattern.data) 2 result.data = res
  rcases res with _ | ⟨a, _ | ⟨b, rest⟩⟩ <;> simp [indexStr]

end ClusterBuilder

namespace Cmp

open ClusterBuilder (GoError errorsNew)

/-! ## Diff on two maps -/

theorem Value.kind_eq_invalid_iff (v : Value) : v.kind = Kind.Invalid ↔ v = Value.invalid := by
  cases v with
  | int k i => cases k <;> simp [Value.kind, IntKind.toKind]
  | uint k n => cases k <;> simp [Value.kind, UintKind.toKind]
  | float k x => cases k <;> simp [Value.kind, FloatKind.toKind]
  | complex k re im => cases k <;> simp [Value.kind, ComplexKind.toKind]
  | _ => simp [Value.kind]

theorem Value.kind_eq_interface_iff (v : Value) :
    v.kind = Kind.Interface ↔ ∃ d, v = Value.iface d := by
  cases v with
  | int k i => cases k <;> simp [Value.kind, IntKind.toKind]
  | uint k n => cases k <;> simp [Value.kind, UintKind.toKind]
  | float k x => cases k <;> simp [Value.kind, FloatKind.toKind]
  | complex k re im => cases k <;> simp [Value.kind, ComplexKind.toKind]
  | _ => simp [Value.kind]

/-- Against the zero Value of a missing key, `compare` answers "equal" exactly
for a nil interface (and for the zero Value itself). -/
theorem compare_invalid_right (rt : Runtime) (v : Value) :
    compare rt v Value.invalid = true ↔ (v = Value.invalid ∨ v = Value.iface Value.invalid) := by
  have key : ∀ a : Value, (if a.kind ≠ Kind.Invalid then false
      else
        match a.kind with
        | Kind.Bool => a.getBool == Value.invalid.getBool
        | Kind.Int | Kind.Int8 | Kind.Int16 | Kind.Int32 | Kind.Int64 =>
          a.getInt == Value.invalid.getInt
        | Kind.Uint | Kind.Uint8 | Kind.Uint16 | Kind.Uint32 | Kind.Uint64 | Kind.Uintptr =>
          a.getUint == Value.invalid.getUint
        | Kind.Float32 | Kind.Float64 => GoFloat.eq a.getFloat Value.invalid.getFloat
        | Kind.Complex64 | Kind.Complex128 =>
          GoFloat.eq a.getComplex.1 Value.invalid.getComplex.1 &&
            GoFloat.eq a.getComplex.2 Value.invalid.getComplex.2
        | Kind.String => Value.string rt a == Value.string rt Value.invalid
        | Kind.Slice | Kind.Array | Kind.Map => rt.marshal a == rt.marshal Value.invalid
        | Kind.Ptr | Kind.Interface => rt.deepEqual a.elem Value.invalid.elem
        | Kind.Func | Kind.Struct | Kind.Chan | Kind.UnsafePointer => true
        | _ => true) = true ↔ a = Value.invalid := by
    intro a
    by_cases h : a.kind = Kind.Invalid
    · simp only [h, ne_eq, not_true_eq_false, if_false, true_iff]
      exact (Value.kind_eq_invalid_iff a).1 h
    · simp only [ne_eq, h, not_false_eq_true, if_true, Bool.false_eq_true, false_iff]
      exact fun ha => h ((Value.kind_eq_invalid_iff a).2 ha)
  have hk0 : Value.invalid.kind = Kind.Invalid := rfl
  have hni : ¬ (Kind.Invalid = Kind.Interface) := by decide
  by_cases hi : v.kind = Kind.Interface
  · obtain ⟨d, rfl⟩ := (Value.kind_eq_interface_iff v).1 hi
    have he : (Value.iface d).elem = d := rfl
    unfold compare
    simp only [hi, if_true, he, hk0, hni, if_false]
    refine (key d).trans ⟨fun h => Or.inr (by rw [h]), fun h => ?_⟩
    rcases h with h | h
    · cases h
    · cases h
      rfl
  · have hne : ∀ d, v ≠ Value.iface d := fun d hd =>
      hi ((Value.kind_eq_interface_iff v).2 ⟨d, hd⟩)
    unfold compare
    simp only [hi, if_false, hk0, hni]
    exact (key v).trans ⟨fun h => Or.inl h, fun h => h.elim id (fun h2 => absurd h2 (hne _))⟩

theorem lookupEntry_self (rt : Runtime) (entries : List (Value × Value))
    (h : WellFormedMap rt entries) :
    ∀ kv ∈ entries, lookupEntry rt kv.1 entries = kv.2 := by
  induction entries with
  | nil => intro kv hkv; simp at hkv
  | cons e rest ih =>
    obtain ⟨hp, hr⟩ := h
    rw [List.pairwise_cons] at hp
    intro kv hkv
    rcases List.mem_cons.1 hkv with rfl | hmem
    · obtain ⟨k, v⟩ := kv
      simp [lookupEntry, hr (k, v) (List.mem_cons_self _ _)]
    · obtain ⟨k, v⟩ := e
      have hk : rt.keyEq kv.1 k = false := hp.1 kv hmem
      simp only [lookupEntry, hk, Bool.false_eq_true, if_false]
      exact ih ⟨hp.2, fun a ha => hr a (List.mem_cons_of_mem _ ha)⟩ kv hmem

theorem diffMapLoop_eq (rt : Runtime) (n1 n2 : Bool) (old new : List (Value × Value))
    (keys : List Value) (res : DiffResult) :
    diffMapLoop rt (Value.map n1 old) (Value.map n2 new) keys res
      = Except.ok
          { Fields := res.Fields ++ (keys.filter (reported rt old new)).map (fieldOf rt old new) } := by
  induction keys generalizing res with
  | nil => simp [diffMapLoop]
  | cons key rest ih =>
    simp only [diffMapLoop, Value.mapIndex]
    by_cases hc : compare rt (lookupEntry rt key old) (lookupEntry rt key new) = true
    · simp [hc, ih, reported]
    · simp [hc, ih, reported, fieldOf]

/-- Counterexample to C10: the key "a" of the old map, whose value is a nil
interface, is missing from the new map, and `Diff` reports nothing. -/
theorem Diff_missing_key_not_reported :
    lookupEntry sampleRuntime (Value.str "a") [] = Value.invalid ∧
    Diff sampleRuntime
        (some ⟨mapStringAny, Value.map false [(Value.str "a", Value.iface Value.invalid)]⟩)
        (some ⟨mapStringAny, Value.map false []⟩)
      = ({ Fields := [] }, none) :=
  ⟨rfl, rfl⟩

/-- A not-a-number key of the old map is found by `MapIndex` in neither map, so
`Diff` reports nothing for it, whatever its value. -/
theorem Diff_nan_key_not_reported :
    Diff sampleRuntime
        (some ⟨mapFloatString, Value.map false
          [(Value.float FloatKind.Float64 GoFloat.nan, Value.str "x")]⟩)
        (some ⟨mapFloatString, Value.map false []⟩)
      = ({ Fields := [] }, none) :=
  rfl

/-- Two different map types are not compared: `Diff` returns
`errDifferentTypeCompare`. -/
theorem Diff_different_map_types :
    Diff sampleRuntime
        (some ⟨GoType.other Kind.Map "map[string]int", Value.map false []⟩)
        (some ⟨GoType.other Kind.Map "map[string]int64", Value.map false []⟩)
      = ({ Fields := [] }, some errDifferentTypeCompare) := by
  decide

/-- C10 (amended): for every two maps of the same map type, `Diff` returns no
error and one `FieldInfo` for each key of the old map, in the order of
`MapKeys`, for which `compare` rejects the value `MapIndex` finds under the key
in the old map against the value it finds under the key in the new map (the
zero Value when it finds none), and no other: there is at most one per key of
old.  In a well-formed old map (no not-a-number key) the value found in the old
map is the key's value.  Each `Key` is the `String()` form of a key of old,
which for a string key is the key itself, so a key of new alone is never
reported.  A key of old that is missing from new is reported unless what
`MapIndex` finds for it in old is a nil interface or nothing at all (a
not-a-number key), in which case it is not. -/
theorem Diff_maps (rt : Runtime) (T : GoType) (n1 n2 : Bool) (old new : List (Value × Value))
    (hT : T.kind = Kind.Map) :
    Diff rt (some ⟨T, Value.map n1 old⟩) (some ⟨T, Value.map n2 new⟩)
      = ({ Fields := ((old.map Prod.fst).filter (reported rt old new)).map (fieldOf rt old new) },
          none) ∧
    (Diff rt (some ⟨T, Value.map n1 old⟩) (some ⟨T, Value.map n2 new⟩)).1.Fields.length
      ≤ old.length ∧
    (∀ f ∈ (Diff rt (some ⟨T, Value.map n1 old⟩) (some ⟨T, Value.map n2 new⟩)).1.Fields,
      ∃ kv ∈ old, f.Key = Value.string rt kv.1 ∧
        compare rt (lookupEntry rt kv.1 old) (lookupEntry rt kv.1 new) = false) ∧
    (∀ kv ∈ old, compare rt (lookupEntry rt kv.1 old) (lookupEntry rt kv.1 new) = false →
      fieldOf rt old new kv.1 ∈
        (Diff rt (some ⟨T, Value.map n1 old⟩) (some ⟨T, Value.map n2 new⟩)).1.Fields) ∧
    (WellFormedMap rt old → ∀ kv ∈ old, lookupEntry rt kv.1 old = kv.2) ∧
    (∀ key : Value, lookupEntry rt key new = Value.invalid →
      (compare rt (lookupEntry rt key old) (lookupEntry rt key new) = false ↔
        (lookupEntry rt key old ≠ Value.invalid ∧
          lookupEntry rt key old ≠ Value.iface Value.invalid))) ∧
    (∀ s : String, (fieldOf rt old new (Value.str s)).Key = s) := by
  have hmain : Diff rt (some ⟨T, Value.map n1 old⟩) (some ⟨T, Value.map n2 new⟩)
      = ({ Fields := ((old.map Prod.fst).filter (reported rt old new)).map (fieldOf rt old new) },
          none) := by
    have hp : ¬ (T.kind = Kind.Ptr) := by rw [hT]; decide
    have hk : (Value.map n1 old).kind = Kind.Map := rfl
    have hs : ¬ (Kind.Map = Kind.Struct) := by decide
    have hloop := diffMapLoop_eq rt n1 n2 old new (old.map Prod.fst) { Fields := [] }
    unfold Diff
    simp only [hp, if_false, ne_eq, not_true_eq_false]
    unfold diff
    simp only [hs, if_false, hk, if_true, Value.mapKeys, hloop, List.nil_append]
  refine ⟨hmain, ?_, ?_, ?_, lookupEntry_self rt old, ?_, ?_⟩
  · rw [hmain]
    simp only [List.length_map]
    exact (List.length_filter_le _ _).trans (by simp)
  · rw [hmain]
    intro f hf
    simp only [List.mem_map, List.mem_filter] at hf
    obtain ⟨key, ⟨⟨kv, hmem, rfl⟩, hrep⟩, rfl⟩ := hf
    refine ⟨kv, hmem, rfl, ?_⟩
    simpa [reported] using hrep
  · rw [hmain]
    intro kv hmem hc
    simp only [List.mem_map, List.mem_filter]
    exact ⟨kv.1, ⟨⟨kv, hmem, rfl⟩, by simp [reported, hc]⟩, rfl⟩
  · intro key hmiss
    rw [hmiss]
    have := compare_invalid_right rt (lookupEntry rt key old)
    constructor
    · intro hc
      constructor
      · intro h1
        rw [this.2 (Or.inl h1)] at hc
        cases hc
      · intro h2
        rw [this.2 (Or.inr h2)] at hc
        cases hc
    · intro hne
      by_contra hc
      have ht : compare rt (lookupEntry rt key old) Value.invalid = true := by simpa using hc
      rcases this.1 ht with h | h
      · exact hne.1 h
      · exact hne.2 h
  · intro s
    rfl

/-- Witness of C10 (amended): old `{a: nil, b: "x", c: "y"}` against new
`{c: "y", d: "y"}`: only "b" is reported. -/
theorem Diff_maps_witness :
    Diff sampleRuntime
        (some ⟨mapStringAny, Value.map false
          [(Value.str "a", Value.iface Value.invalid),
           (Value.str "b", Value.iface (Value.str "x")),
           (Value.str "c", Value.iface (Value.str "y"))]⟩)
        (some ⟨mapStringAny, Value.map false
          [(Value.str "c", Value.iface (Value.str "y")),
           (Value.str "d", Value.iface (Value.str "y"))]⟩)
      = ({ Fields := [{ Key := "b", ValueOld := "x", ValueNew := "" }] }, none) :=
  (Diff_maps sampleRuntime mapStringAny false false
    [(Value.str "a", Value.iface Value.invalid),
     (Value.str "b", Value.iface (Value.str "x")),
     (Value.str "c", Value.iface (Value.str "y"))]
    [(Value.str "c", Value.iface (Value.str "y")),
     (Value.str "d", Value.iface (Value.str "y"))]
    rfl).1

end Cmp
